import Mathlib

set_option maxHeartbeats 1000000

namespace ZeroRPC

/-! Shallow embedding of src/lib/server.js (zerorpc-node server core):
the result-sink channel state machine, the method registry / manifest
builder, and the dispatch front end. -/

/-- A JavaScript value, as far as the server core inspects one. -/
inductive JSVal where
  | undefined : JSVal
  | null : JSVal
  | boolean : Bool → JSVal
  | num : Int → JSVal
  | str : String → JSVal
  | arr : List JSVal → JSVal

/-- JS loose comparison with undefined: the source guard is
the line item != undefined, which is false exactly for null and undefined. -/
def JSVal.isDefined : JSVal → Bool
  | .undefined => false
  | .null => false
  | _ => true

/-- Whether a value is an Array (the source test: event.args instanceof Array). -/
def JSVal.isArr : JSVal → Bool
  | .arr _ => true
  | _ => false

/-- A result frame sent on a channel: channel.send(kind, payload). -/
inductive Frame where
  | OK : List JSVal → Frame
  | STREAM : JSVal → Frame
  | STREAM_DONE : List JSVal → Frame
  | ERR : String → String → String → Frame

/-- OK and ERR are the frames the spec calls terminal. -/
def Frame.isTerminal : Frame → Bool
  | .OK _ => true
  | .ERR _ _ _ => true
  | _ => false

/-- A JS error object, as far as the result sink reads one:
a type property (absent on plain Error instances), message and stack. -/
structure ErrorObj where
  type : Option String
  message : String
  stack : String

/-- The error argument passed to the result sink: nothing (null or
undefined), a plain string, or an error object. -/
inductive ErrArg where
  | nil : ErrArg
  | str : String → ErrArg
  | obj : ErrorObj → ErrArg

/-- JS truthiness of the error argument (the source tests if(error)):
null and undefined are falsy and so is the empty string. -/
def ErrArg.isSet : ErrArg → Bool
  | .nil => false
  | .str s => !(s == "")
  | .obj _ => true

/-- The source line: typeof(error) == 'string' ? new Error(error) : error.
The Error constructor yields an object with no type property, the given
message, and a runtime stack; stk abstracts the runtime stack text. -/
def toErrorObj (stk : String → String) : ErrArg → ErrorObj
  | .str s => { type := none, message := s, stack := stk s }
  | .obj o => o
  | .nil => { type := none, message := "", stack := "" }

/-- JS short-circuit or on the type string: errorObj.type || "Error"
takes the default when type is absent (undefined) or falsy (empty). -/
def jsOr (t : Option String) (d : String) : String :=
  match t with
  | none => d
  | some s => if s == "" then d else s

/-- The mutable per-channel closure state of _recv: the isFirst and
finished flags and whether channel.close() has been called. -/
structure ChanState where
  isFirst : Bool
  finished : Bool
  closed : Bool

/-- State at channel open: isFirst = true, finished = false, open. -/
def ChanState.init : ChanState := ⟨true, false, false⟩

/-- The source helper finish(): sets finished and closes the channel. -/
def finishState (s : ChanState) : ChanState :=
  { s with finished := true, closed := true }

/-- One invocation of the result sink (the function result in _recv):
either it throws (the finished guard) or it returns the frames sent,
in order, and the updated channel state.  Mirrors src/lib/server.js
lines 135-160 branch for branch; isFirst is cleared on every
non-throwing path (the throw aborts before the trailing assignment). -/
def result (stk : String → String) (s : ChanState) (error : ErrArg)
    (item : JSVal) (more : Bool) : Except String (List Frame × ChanState) :=
  if s.finished then
    .error "Result callback called after the channel was closed"
  else if error.isSet then
    let o := toErrorObj stk error
    .ok ([Frame.ERR (jsOr o.type "Error") o.message o.stack],
         { finishState s with isFirst := false })
  else
    let frames1 : List Frame :=
      if s.isFirst && !more then [Frame.OK [item]]
      else if item.isDefined then [Frame.STREAM item]
      else []
    if !more then
      .ok (frames1 ++ (if !s.isFirst then [Frame.STREAM_DONE []] else []),
           { finishState s with isFirst := false })
    else
      .ok (frames1, { s with isFirst := false })

/-- One call an application method makes on the result sink. -/
structure Invocation where
  error : ErrArg
  item : JSVal
  more : Bool

/-- Runs a sequence of result-sink invocations from a state, collecting
every frame sent.  A throwing invocation sends nothing and leaves the
state unchanged (the raised error propagates to the calling method). -/
def runCalls (stk : String → String) (s : ChanState) :
    List Invocation → List Frame × ChanState
  | [] => ([], s)
  | c :: cs =>
    match result stk s c.error c.item c.more with
    | .error _ => runCalls stk s cs
    | .ok (fs, s1) =>
      let r := runCalls stk s1 cs
      (fs ++ r.1, r.2)

/-- Holds when only the final frame of the list may be terminal:
so at most one OK or ERR frame appears, and only in last position. -/
def termLastOnly : List Frame → Bool
  | [] => true
  | [_] => true
  | f :: g :: fs => !f.isTerminal && termLastOnly (g :: fs)

/-- A member of the context object: a function with its declared formal
parameter names, or a non-function value. -/
inductive Member where
  | func : List String → Member
  | plain : Member
deriving DecidableEq

/-- The source test typeof(context[name]) == 'function'. -/
def Member.isFunc : Member → Bool
  | .func _ => true
  | .plain => false

/-- The parameter names of a function member. -/
def Member.params : Member → List String
  | .func ps => ps
  | .plain => []

/-- A context object: named members in property-insertion order, the
order a for-in loop visits them; keys are unique in a JS object. -/
abbrev Context := List (String × Member)

/-- getArguments(fun) parses fun.toString() with a regex, yielding the
declared formal parameter names in declaration order; a function value
is represented here directly by that name list. -/
def getArguments (m : Member) : List String := m.params

/-- The source guard !/^_/.test(name): a name whose first character is
an underscore is not public. -/
def isPublicName (name : String) : Bool :=
  match name.data with
  | [] => true
  | ch :: _ => !(ch == '_')

/-- The names the loop in publicMethods marks true: members that are
functions and whose name does not start with an underscore. -/
def publicNames (c : Context) : List String :=
  (c.filter (fun p => isPublicName p.1 && p.2.isFunc)).map Prod.fst

/-- The parameter list of one manifest entry as the code builds it:
args.shift() removes the FIRST declared name, then "self" is prepended
(["self"].concat(args)). -/
def manifestParams (params : List String) : List String :=
  "self" :: params.drop 1

/-- The parameter list of one manifest entry as the spec words it:
the trailing (result-sink callback) parameter removed and "self"
prepended.  Stated for refinement comparison with manifestParams. -/
def specManifestParams (params : List String) : List String :=
  "self" :: params.dropLast

/-- One entry of the inspected list: [name, [paramList, null, null, null], ""];
only the name and the parameter list are modelled. -/
structure ManifestEntry where
  name : String
  paramNames : List String
deriving DecidableEq

/-- The inspected list built in publicMethods, one entry per public
method in discovery order. -/
def inspectedEntries (c : Context) : List ManifestEntry :=
  (c.filter (fun p => isPublicName p.1 && p.2.isFunc)).map
    (fun p => ⟨p.1, manifestParams (getArguments p.2)⟩)

/-- JS property assignment context[name] = m: overwrites the member in
place when the key exists, otherwise appends it. -/
def setMember (c : Context) (name : String) (m : Member) : Context :=
  if c.any (fun p => p.1 == name) then
    c.map (fun p => if p.1 == name then (p.1, m) else p)
  else c ++ [(name, m)]

/-- The injected introspector function(cb){ cb(null, inspectedOutput, false); }. -/
def inspectFun : Member := .func ["cb"]

/-- The mutation publicMethods performs on the context: the line
context._zerorpc_inspect = function(cb){...}. -/
def publicMethodsCtx (c : Context) : Context :=
  setMember c "_zerorpc_inspect" inspectFun

/-- The key set of the methods object publicMethods returns: the public
names plus the synthetic _zerorpc_inspect added at the end. -/
def publicMethodsNames (c : Context) : List String :=
  publicNames c ++ ["_zerorpc_inspect"]

/-- Property lookup on a context (first matching key). -/
def lookupMember : Context → String → Option Member
  | [], _ => none
  | p :: ps, n => if p.1 == n then some p.2 else lookupMember ps n

/-- An incoming request event {name, args}; args is an arbitrary value
until _recv validates it is an Array. -/
structure Event where
  name : String
  args : JSVal

/-- The observable effect of handling one incoming event, up to the
point the target method would run: whether a channel was opened, what
was emitted on the error observable, whether the channel was closed,
which method was invoked with which argument list (the result sink is
appended to it by the code and left implicit here), and the frames
sent by the dispatcher itself. -/
structure DispatchResult where
  channelOpened : Bool
  errorEmitted : Option String
  channelClosed : Bool
  invoked : Option (String × List JSVal)
  frames : List Frame

/-- The effect of an event the receive handler ignores. -/
def noEffect : DispatchResult :=
  { channelOpened := false, errorEmitted := none, channelClosed := false,
    invoked := none, frames := [] }

/-- Server.prototype._recv up to method invocation: opens a channel,
then if event.args is not an Array emits "Invalid event: Bad args" on
the error observable and runs finish() (closing the channel) without
invoking the method; otherwise invokes the named method with the args
(plus the appended result sink). -/
def recv (e : Event) : DispatchResult :=
  match e.args with
  | .arr xs =>
    { channelOpened := true, errorEmitted := none, channelClosed := false,
      invoked := some (e.name, xs), frames := [] }
  | _ =>
    { channelOpened := true, errorEmitted := some "Invalid event: Bad args",
      channelClosed := true, invoked := none, frames := [] }

/-- The property names a plain object literal inherits from
Object.prototype.  The methods object is created as {}, so these names
answer true to the in operator on it even though a for-in loop never
enumerates them (they are not own keys of the object). -/
def objectProtoProps : List String :=
  ["constructor", "hasOwnProperty", "isPrototypeOf", "propertyIsEnumerable",
   "toLocaleString", "toString", "valueOf", "__defineGetter__",
   "__defineSetter__", "__lookupGetter__", "__lookupSetter__", "__proto__"]

/-- The receive subscription installed by the Server constructor:
if(event.name in methods) self._recv(event, heartbeat, context).
The in operator consults the whole prototype chain of the methods
object, so it is true for the registry's own keys and also for every
property name inherited from Object.prototype; only a name matching
neither does nothing at all. -/
def dispatch (methods : List String) (e : Event) : DispatchResult :=
  if e.name ∈ methods ∨ e.name ∈ objectProtoProps then recv e else noEffect

/-! Helper lemmas -/

/-- Once the channel is finished, every further invocation throws, so a
whole suffix of invocations produces no frame and leaves the state as is. -/
theorem runCalls_finished (stk : String → String) (cs : List Invocation)
    (s : ChanState) (hf : s.finished = true) : runCalls stk s cs = ([], s) := by
  induction cs with
  | nil => rfl
  | cons c cs ih => simp [runCalls, result, hf, ih]

/-- Prepending a non-terminal frame preserves termLastOnly. -/
theorem termLastOnly_cons (f : Frame) (l : List Frame)
    (hf : f.isTerminal = false) (hl : termLastOnly l = true) :
    termLastOnly (f :: l) = true := by
  cases l with
  | nil => rfl
  | cons g gs => simp [termLastOnly, hf, hl]

/-- Invariant of the result-sink loop: from any unfinished state, the
frames produced by a sequence of invocations have terminal frames only
in last position, and if any terminal frame appears the final state has
the channel closed. -/
theorem runCalls_termLastOnly (stk : String → String) (cs : List Invocation) :
    ∀ s : ChanState, s.finished = false →
      termLastOnly (runCalls stk s cs).1 = true ∧
      ((runCalls stk s cs).1.any Frame.isTerminal = true →
        (runCalls stk s cs).2.closed = true) := by
  induction cs with
  | nil => exact fun s hf => ⟨rfl, by simp [runCalls]⟩
  | cons c cs ih =>
    intro s hf
    by_cases he : c.error.isSet = true
    · have h1 : result stk s c.error c.item c.more =
        .ok ([Frame.ERR (jsOr (toErrorObj stk c.error).type "Error")
                (toErrorObj stk c.error).message (toErrorObj stk c.error).stack],
             { finishState s with isFirst := false }) := by
        simp [result, hf, he]
      refine ⟨?_, fun _ => ?_⟩
      · simp [runCalls, h1, runCalls_finished, termLastOnly, finishState]
      · simp [runCalls, h1, runCalls_finished, finishState]
    · have he' : c.error.isSet = false := by simpa using he
      by_cases hm : c.more = true
      · by_cases hd : c.item.isDefined = true
        · have h1 : result stk s c.error c.item c.more =
            .ok ([Frame.STREAM c.item], { s with isFirst := false }) := by
            simp [result, hf, he', hm, hd]
          have ih' := ih { s with isFirst := false } hf
          refine ⟨?_, fun h => ?_⟩
          · have := termLastOnly_cons (Frame.STREAM c.item)
              (runCalls stk { s with isFirst := false } cs).1 rfl ih'.1
            simpa [runCalls, h1] using this
          · simp only [runCalls, h1] at h ⊢
            exact ih'.2 (by simpa [Frame.isTerminal] using h)
        · have hd' : c.item.isDefined = false := by simpa using hd
          have h1 : result stk s c.error c.item c.more =
            .ok ([], { s with isFirst := false }) := by
            simp [result, hf, he', hm, hd']
          have ih' := ih { s with isFirst := false } hf
          refine ⟨?_, fun h => ?_⟩
          · simpa [runCalls, h1] using ih'.1
          · simp only [runCalls, h1] at h ⊢
            exact ih'.2 (by simpa using h)
      · have hm' : c.more = false := by simpa using hm
        by_cases hi : s.isFirst = true
        · have h1 : result stk s c.error c.item c.more =
            .ok ([Frame.OK [c.item]], { finishState s with isFirst := false }) := by
            simp [result, hf, he', hm', hi]
          refine ⟨?_, fun _ => ?_⟩
          · simp [runCalls, h1, runCalls_finished, termLastOnly, finishState]
          · simp [runCalls, h1, runCalls_finished, finishState]
        · have hi' : s.isFirst = false := by simpa using hi
          by_cases hd : c.item.isDefined = true
          · have h1 : result stk s c.error c.item c.more =
              .ok ([Frame.STREAM c.item, Frame.STREAM_DONE []],
                   { finishState s with isFirst := false }) := by
              simp [result, hf, he', hm', hi', hd]
            refine ⟨?_, fun _ => ?_⟩
            · simp [runCalls, h1, runCalls_finished, termLastOnly, Frame.isTerminal, finishState]
            · simp [runCalls, h1, runCalls_finished, finishState]
          · have hd' : c.item.isDefined = false := by simpa using hd
            have h1 : result stk s c.error c.item c.more =
              .ok ([Frame.STREAM_DONE []],
                   { finishState s with isFirst := false }) := by
              simp [result, hf, he', hm', hi', hd']
            refine ⟨?_, fun _ => ?_⟩
            · simp [runCalls, h1, runCalls_finished, termLastOnly, finishState]
            · simp [runCalls, h1, runCalls_finished, finishState]

/-- In-place overwrite of key k does not affect lookup of a key n distinct
from k. -/
theorem lookupMember_map_set_ne (c : Context) (k : String) (m : Member)
    (n : String) (hn : n ≠ k) :
    lookupMember (c.map (fun p => if p.1 == k then (p.1, m) else p)) n =
      lookupMember c n := by
  induction c with
  | nil => rfl
  | cons p ps ih =>
    by_cases hp : (p.1 == k) = true
    · have hp' : p.1 = k := by simpa using hp
      have hpn : (p.1 == n) = false := by
        simp only [beq_eq_false_iff_ne, hp']
        exact Ne.symm hn
      simp only [List.map_cons, hp, if_true, lookupMember, hpn,
        Bool.false_eq_true, if_false]
      exact ih
    · have hp' : (p.1 == k) = false := by simpa using hp
      simp only [List.map_cons, hp', Bool.false_eq_true, if_false, lookupMember]
      by_cases hpn : (p.1 == n) = true
      · simp only [hpn, if_true]
      · have hpn' : (p.1 == n) = false := by simpa using hpn
        simp only [hpn', Bool.false_eq_true, if_false]
        exact ih

/-- In-place overwrite of a key that is present makes lookup of that key
yield the new member. -/
theorem lookupMember_map_set_eq (c : Context) (k : String) (m : Member)
    (hc : c.any (fun p => p.1 == k) = true) :
    lookupMember (c.map (fun p => if p.1 == k then (p.1, m) else p)) k =
      some m := by
  induction c with
  | nil => simp at hc
  | cons p ps ih =>
    by_cases hp : (p.1 == k) = true
    · simp only [List.map_cons, hp, if_true, lookupMember]
    · have hp' : (p.1 == k) = false := by simpa using hp
      have hc' : ps.any (fun p => p.1 == k) = true := by
        simpa [List.any_cons, hp'] using hc
      simp only [List.map_cons, hp', Bool.false_eq_true, if_false, lookupMember]
      exact ih hc'

/-- Appending a binding for a key distinct from n does not affect the
lookup of n. -/
theorem lookupMember_append_ne (c : Context) (k : String) (m : Member)
    (n : String) (hn : n ≠ k) :
    lookupMember (c ++ [(k, m)]) n = lookupMember c n := by
  induction c with
  | nil =>
    have hkn : (k == n) = false := by
      simp only [beq_eq_false_iff_ne]
      exact Ne.symm hn
    simp only [List.nil_append, lookupMember, hkn, Bool.false_eq_true, if_false]
  | cons p ps ih =>
    by_cases hpn : (p.1 == n) = true
    · simp only [List.cons_append, lookupMember, hpn, if_true]
    · have hpn' : (p.1 == n) = false := by simpa using hpn
      simp only [List.cons_append, lookupMember, hpn', Bool.false_eq_true,
        if_false]
      exact ih

/-- Appending a binding for an absent key makes lookup of it yield the
new member. -/
theorem lookupMember_append_eq (c : Context) (k : String) (m : Member)
    (hc : c.any (fun p => p.1 == k) = false) :
    lookupMember (c ++ [(k, m)]) k = some m := by
  induction c with
  | nil => simp [lookupMember]
  | cons p ps ih =>
    have h1 : (p.1 == k) = false := by
      by_contra h
      simp only [Bool.not_eq_false] at h
      simp [List.any_cons, h] at hc
    have hc' : ps.any (fun p => p.1 == k) = false := by
      simpa [List.any_cons, h1] using hc
    simp only [List.cons_append, lookupMember, h1, Bool.false_eq_true, if_false]
    exact ih hc'

/-- Looking up a key a property assignment did not target is unchanged. -/
theorem lookupMember_setMember_ne (c : Context) (k : String) (m : Member)
    (n : String) (hn : n ≠ k) :
    lookupMember (setMember c k m) n = lookupMember c n := by
  unfold setMember
  by_cases hc : c.any (fun p => p.1 == k) = true
  · simpa [hc] using lookupMember_map_set_ne c k m n hn
  · simp only [hc, if_false]
    exact lookupMember_append_ne c k m n hn

/-- Looking up the assigned key yields the assigned member. -/
theorem lookupMember_setMember_eq (c : Context) (k : String) (m : Member) :
    lookupMember (setMember c k m) k = some m := by
  unfold setMember
  by_cases hc : c.any (fun p => p.1 == k) = true
  · simpa [hc] using lookupMember_map_set_eq c k m hc
  · have hc' : c.any (fun p => p.1 == k) = false := by
      rw [Bool.not_eq_true] at hc
      exact hc
    simp only [hc', if_false]
    exact lookupMember_append_eq c k m hc'

/-! Claim theorems -/

/-- C1 (code bug): the spec says each manifest entry lists the declared
parameter names with the TRAILING (result-sink callback) parameter
removed and "self" prepended — consistent with _recv, which appends the
result sink as the LAST argument.  The code instead calls args.shift(),
removing the FIRST declared name.  At a method add(a, b, cb) the code
produces ["self", "b", "cb"] where the spec requires ["self", "a", "b"]. -/
theorem C1_manifest_drops_first_not_trailing :
    inspectedEntries [("add", Member.func ["a", "b", "cb"])] =
      [⟨"add", ["self", "b", "cb"]⟩] ∧
    specManifestParams ["a", "b", "cb"] = ["self", "a", "b"] ∧
    manifestParams ["a", "b", "cb"] ≠ specManifestParams ["a", "b", "cb"] := by
  refine ⟨rfl, rfl, ?_⟩
  decide

/-- C2: over any sequence of result-sink invocations from a freshly
opened channel, at most one OK or ERR frame is emitted, any such frame
is the last frame of the channel, and if one is emitted the final state
has the channel closed. -/
theorem C2_terminal_frame_unique_and_last (stk : String → String)
    (cs : List Invocation) :
    termLastOnly (runCalls stk ChanState.init cs).1 = true ∧
    ((runCalls stk ChanState.init cs).1.any Frame.isTerminal = true →
      (runCalls stk ChanState.init cs).2.closed = true) :=
  runCalls_termLastOnly stk cs ChanState.init rfl

/-- Witness for C2 at the one-invocation sequence callback("boom"):
the trace contains a terminal frame, so the final state is closed. -/
theorem C2_terminal_frame_unique_and_last_witness :
    (runCalls (fun s => s) ChanState.init
      [⟨ErrArg.str "boom", JSVal.undefined, false⟩]).2.closed = true :=
  (C2_terminal_frame_unique_and_last (fun s => s)
    [⟨ErrArg.str "boom", JSVal.undefined, false⟩]).2 (by rfl)

/-- C3: a first invocation with no error and more = false sends exactly
one OK frame wrapping the item in a one-element sequence, and the
channel finishes and closes; no STREAM_DONE frame is sent. -/
theorem C3_first_single_reply (stk : String → String) (item : JSVal) :
    result stk ChanState.init ErrArg.nil item false =
      .ok ([Frame.OK [item]], ⟨false, true, true⟩) := rfl

/-- C4: the invocation sequence callback(null,"a",true);
callback(null,"b",true); callback(null,undefined,false) yields exactly
STREAM("a"), STREAM("b"), STREAM_DONE([]) and a closed channel; and in
general a non-first, non-error invocation with more = false and
undefined item sends exactly one STREAM_DONE frame with empty payload
and closes the channel. -/
theorem C4_stream_then_done (stk : String → String) :
    runCalls stk ChanState.init
      [⟨ErrArg.nil, JSVal.str "a", true⟩, ⟨ErrArg.nil, JSVal.str "b", true⟩,
       ⟨ErrArg.nil, JSVal.undefined, false⟩] =
      ([Frame.STREAM (JSVal.str "a"), Frame.STREAM (JSVal.str "b"),
        Frame.STREAM_DONE []], ⟨false, true, true⟩) ∧
    (∀ s : ChanState, s.isFirst = false → s.finished = false →
      result stk s ErrArg.nil JSVal.undefined false =
        .ok ([Frame.STREAM_DONE []],
             { s with finished := true, closed := true })) := by
  refine ⟨rfl, fun s h1 h2 => ?_⟩
  rcases s with ⟨a, b, c⟩
  simp only at h1 h2
  subst h1
  subst h2
  rfl

/-- Witness for C4 at the concrete non-first open state. -/
theorem C4_stream_then_done_witness :
    result (fun s => s) ⟨false, false, false⟩ ErrArg.nil JSVal.undefined
      false = .ok ([Frame.STREAM_DONE []], ⟨false, true, true⟩) :=
  (C4_stream_then_done (fun s => s)).2 ⟨false, false, false⟩ rfl rfl

/-- C5: any invocation on a non-finished channel whose error argument
is set sends exactly one ERR frame carrying [type, message, stack] with
type defaulting to "Error" when the error object has none (in
particular a plain string error yields ["Error", message, stack]) and
finishes and closes the channel, for either value of more. -/
theorem C5_error_terminal (stk : String → String) (s : ChanState)
    (e : ErrArg) (item : JSVal) (more : Bool)
    (hf : s.finished = false) (he : e.isSet = true) :
    (result stk s e item more =
      .ok ([Frame.ERR (jsOr (toErrorObj stk e).type "Error")
              (toErrorObj stk e).message (toErrorObj stk e).stack],
           { finishState s with isFirst := false })) ∧
    ((toErrorObj stk e).type = none →
      jsOr (toErrorObj stk e).type "Error" = "Error") ∧
    (∀ msg : String, msg ≠ "" →
      result stk s (ErrArg.str msg) item more =
        .ok ([Frame.ERR "Error" msg (stk msg)],
             { finishState s with isFirst := false })) := by
  refine ⟨by simp [result, hf, he], fun h => by simp [jsOr, h], fun msg hm => ?_⟩
  simp [result, hf, ErrArg.isSet, toErrorObj, jsOr, hm]

/-- Witness for C5 at callback("boom") on a fresh channel. -/
theorem C5_error_terminal_witness :
    result (fun s => s) ChanState.init (ErrArg.str "boom") JSVal.undefined
      false = .ok ([Frame.ERR "Error" "boom" "boom"], ⟨false, true, true⟩) :=
  (C5_error_terminal (fun s => s) ChanState.init (ErrArg.str "boom")
    JSVal.undefined false rfl rfl).1

/-- C6: an invocation after the channel finished throws unconditionally,
sends no frame and changes no state: the rest of any invocation
sequence proceeds from the unchanged state. -/
theorem C6_raise_after_finished (stk : String → String) (s : ChanState)
    (e : ErrArg) (item : JSVal) (more : Bool) (hf : s.finished = true) :
    result stk s e item more =
      .error "Result callback called after the channel was closed" ∧
    (∀ cs : List Invocation,
      runCalls stk s (⟨e, item, more⟩ :: cs) = runCalls stk s cs) := by
  refine ⟨by simp [result, hf], fun cs => by simp [runCalls, result, hf]⟩

/-- Witness for C6 at a closed channel state. -/
theorem C6_raise_after_finished_witness :
    result (fun s => s) ⟨false, true, true⟩ ErrArg.nil JSVal.undefined false =
      .error "Result callback called after the channel was closed" :=
  (C6_raise_after_finished (fun s => s) ⟨false, true, true⟩ ErrArg.nil
    JSVal.undefined false rfl).1

/-- C7: a request matching a registered method whose args value is not
an Array makes the dispatcher open the channel, emit the protocol error
on the error observable, close the channel, invoke no method and send
no frame. -/
theorem C7_bad_args_protocol_error (c : Context) (e : Event)
    (hm : e.name ∈ publicMethodsNames c) (ha : e.args.isArr = false) :
    dispatch (publicMethodsNames c) e =
      { channelOpened := true, errorEmitted := some "Invalid event: Bad args",
        channelClosed := true, invoked := none, frames := [] } := by
  rcases e with ⟨name, args⟩
  cases args <;> simp_all [dispatch, recv, JSVal.isArr]

/-- Witness for C7 at a registered method called with non-Array args. -/
theorem C7_bad_args_protocol_error_witness :
    dispatch (publicMethodsNames [("add", Member.func ["a", "b", "cb"])])
      ⟨"add", JSVal.num 5⟩ =
      { channelOpened := true, errorEmitted := some "Invalid event: Bad args",
        channelClosed := true, invoked := none, frames := [] } :=
  C7_bad_args_protocol_error [("add", Member.func ["a", "b", "cb"])]
    ⟨"add", JSVal.num 5⟩ (by decide) rfl

/-- C8 (code bug): a request naming a method outside the registry is
supposed to be silently dropped, but the guard event.name in methods
uses the JS in operator, which consults Object.prototype: "toString"
is not in the registry (the registry of the empty context is just
["_zerorpc_inspect"]) yet the guard accepts it, so _recv runs — a
channel is opened and the inherited member is invoked — instead of the
event being dropped with no channel and no invocation. -/
theorem C8_proto_leak_not_dropped :
    (publicMethodsNames ([] : Context)).contains "toString" = false ∧
    dispatch (publicMethodsNames ([] : Context)) ⟨"toString", JSVal.arr []⟩ =
      { channelOpened := true, errorEmitted := none, channelClosed := false,
        invoked := some ("toString", []), frames := [] } := by
  refine ⟨by decide, ?_⟩
  unfold dispatch
  rw [if_pos (Or.inr (by decide : ("toString" : String) ∈ objectProtoProps))]
  rfl

/-- C9 counterexample: building the registry mutates the Context — on a
context with no members, construction adds the _zerorpc_inspect member,
so the claim that the Context is never mutated is false. -/
theorem C9_context_is_mutated : publicMethodsCtx ([] : Context) ≠ [] := by
  decide

/-- C9 (amended): server construction mutates the Context in exactly one
way — it sets the _zerorpc_inspect member to the injected introspector;
every other member is left unchanged. -/
theorem C9_mutation_only_inspect (c : Context) (n : String) :
    (n ≠ "_zerorpc_inspect" →
      lookupMember (publicMethodsCtx c) n = lookupMember c n) ∧
    lookupMember (publicMethodsCtx c) "_zerorpc_inspect" = some inspectFun :=
  ⟨fun h => lookupMember_setMember_ne c "_zerorpc_inspect" inspectFun n h,
   lookupMember_setMember_eq c "_zerorpc_inspect" inspectFun⟩

/-- Witness for C9 (amended) at a one-method context. -/
theorem C9_mutation_only_inspect_witness :
    lookupMember (publicMethodsCtx [("add", Member.func ["a", "b", "cb"])])
      "add" = some (Member.func ["a", "b", "cb"]) ∧
    lookupMember (publicMethodsCtx [("add", Member.func ["a", "b", "cb"])])
      "_zerorpc_inspect" = some inspectFun := by
  have h := C9_mutation_only_inspect [("add", Member.func ["a", "b", "cb"])]
    "add"
  refine ⟨?_, h.2⟩
  rw [h.1 (by decide)]
  rfl

/-- C10: a non-error invocation on a non-finished channel with
more = true and a null or undefined item sends no frame at all and only
clears isFirst: the channel stays unfinished and is not closed. -/
theorem C10_nullish_item_skipped (stk : String → String) (s : ChanState)
    (item : JSVal) (hf : s.finished = false)
    (hi : item = JSVal.null ∨ item = JSVal.undefined) :
    result stk s ErrArg.nil item true =
      .ok ([], { s with isFirst := false }) := by
  rcases hi with h | h <;> subst h <;>
    simp [result, hf, JSVal.isDefined, ErrArg.isSet]

/-- Witness for C10 at a null item on a fresh channel. -/
theorem C10_nullish_item_skipped_witness :
    result (fun s => s) ChanState.init ErrArg.nil JSVal.null true =
      .ok ([], ⟨false, false, false⟩) :=
  C10_nullish_item_skipped (fun s => s) ChanState.init JSVal.null rfl
    (Or.inl rfl)

end ZeroRPC
